import Mathlib

/-!
Verification development for the barterbackup identity / transport /
connection-pool core.

The Go sources are shallowly embedded: pure functions become Lean
functions, byte slices become `List Nat`, stateful code becomes explicit
state passing, and fallible code returns `Except`.  External
cryptographic primitives (SHA-256, Argon2id, HKDF-SHA256, the Ed25519
scalar-base multiplication and the onion-service-ID encoding) live in
`golang.org/x/crypto` and the Go standard library, outside this
repository; they are modelled as fields of a `CryptoPrims` structure
together with the length contracts those libraries guarantee (Argon2id
and HKDF emit exactly the requested number of bytes, an Ed25519 public
key is 32 bytes).  Everything written in this repository is translated
from the source files.
-/

/-- Byte strings are lists of naturals (each intended to be < 256; no
claim here depends on the bound). -/
abbrev Bytes := List Nat

/-- Bytes of a Go string (abstract byte encoding of its characters). -/
def strBytes (s : String) : Bytes := s.data.map Char.toNat

/-- Pads or truncates a list to exactly `n` elements (helper used only to
build concrete instances of the primitive bundle for witnesses). -/
def padTo (n : Nat) (l : Bytes) : Bytes :=
  l.take n ++ List.replicate (n - (l.take n).length) 0

theorem padTo_length (n : Nat) (l : Bytes) : (padTo n l).length = n := by
  simp [padTo]

/-- External cryptographic primitives used by `internal/keys/derive.go`
and `internal/node` (from `crypto/sha256`, `golang.org/x/crypto/argon2`,
`golang.org/x/crypto/hkdf`, `crypto/ed25519` and
`github.com/cretz/bine/torutil`), together with the output-length
contracts of those libraries. -/
structure CryptoPrims where
  sha256 : Bytes → Bytes
  argon2id : Bytes → Bytes → Nat → Nat → Nat → Nat → Bytes
  hkdfSha256 : Bytes → Bytes → Bytes → Nat → Bytes
  ed25519PubOf : Bytes → Bytes
  onionIDOf : Bytes → String
  argon2_len : ∀ pw salt t m p klen, (argon2id pw salt t m p klen).length = klen
  hkdf_len : ∀ secret salt info klen, (hkdfSha256 secret salt info klen).length = klen
  ed25519Pub_len : ∀ seed, (ed25519PubOf seed).length = 32

/-- DeriveMasterPriv from `internal/keys/derive.go`: Argon2id over the
password with a salt computed deterministically as
SHA-256(SHA-256(password) ++ SHA-256("deriveMasterPriv")), time cost 1,
memory cost 64*1024, 4 threads, 64-byte output. -/
def DeriveMasterPriv (cp : CryptoPrims) (seed : String) : Bytes :=
  let inp := strBytes seed
  let h1 := cp.sha256 inp
  let h2 := cp.sha256 (strBytes "deriveMasterPriv")
  let salt := cp.sha256 (h1 ++ h2)
  cp.argon2id inp salt 1 (64 * 1024) 4 64

/-- Maximum number of bytes HKDF-SHA256 can emit (255 * hash length);
`hkdf.Read` in Go fails once this limit is exceeded. -/
def hkdfMaxOutput : Nat := 255 * 32

/-- DeriveKey from `internal/keys/derive.go`: HKDF-SHA256 keyed by the
master material with fixed salt "deriveKey" and the purpose label as
info, reading exactly `keyLen` bytes; the read errors iff the HKDF
output limit is exceeded. -/
def DeriveKey (cp : CryptoPrims) (masterPriv : Bytes) (purpose : String)
    (keyLen : Nat) : Except String Bytes :=
  if keyLen ≤ hkdfMaxOutput then
    .ok (cp.hkdfSha256 masterPriv (strBytes "deriveKey") (strBytes purpose) keyLen)
  else
    .error "hkdf: entropy limit reached"

/-- Go `ed25519.NewKeyFromSeed`: the private key is the 32-byte seed
followed by the public key computed from it. -/
def ed25519NewKeyFromSeed (cp : CryptoPrims) (seed : Bytes) : Bytes :=
  seed ++ cp.ed25519PubOf seed

/-- Go `ed25519.PrivateKey.Public`: the last 32 bytes of the 64-byte
private key. -/
def ed25519Public (priv : Bytes) : Bytes := priv.drop 32

/-- DeriveEd25519FromMaster from `internal/keys/derive.go`: rejects empty
master material, derives a 32-byte seed via DeriveKey under the purpose
label, and expands it into an Ed25519 keypair. -/
def DeriveEd25519FromMaster (cp : CryptoPrims) (masterPriv : Bytes)
    (purpose : String) : Except String (Bytes × Bytes) :=
  if masterPriv = [] then .error "empty masterPriv"
  else
    match DeriveKey cp masterPriv purpose 32 with
    | .error e => .error e
    | .ok seed =>
      let priv := ed25519NewKeyFromSeed cp seed
      .ok (priv, ed25519Public priv)

/-- Identity and address computed by `node.New` (part_008): master
material from the password, Ed25519 keypair under purpose
"tor/onion/v3", onion address `OnionServiceIDFromV3PublicKey(pub) ++
".onion"`.  `New` additionally rejects a nil network, modelled by the
`netwIsNil` flag. -/
def nodeNewIdentity (cp : CryptoPrims) (seed : String) (netwIsNil : Bool) :
    Except String (Bytes × Bytes × String) :=
  if netwIsNil then .error "network is nil"
  else
    let master := DeriveMasterPriv cp seed
    match DeriveEd25519FromMaster cp master "tor/onion/v3" with
    | .error e => .error e
    | .ok (priv, pub) => .ok (priv, pub, cp.onionIDOf pub ++ ".onion")

/-- Concrete primitive bundle used for witnesses: every primitive is a
deterministic padding/truncation function satisfying the length
contracts. -/
def testPrims : CryptoPrims where
  sha256 := fun b => padTo 32 b
  argon2id := fun pw _ _ _ _ klen => padTo klen pw
  hkdfSha256 := fun secret _ info klen => padTo klen (secret ++ info)
  ed25519PubOf := fun seed => padTo 32 seed
  onionIDOf := fun _ => "id"
  argon2_len := fun pw _ _ _ _ klen => padTo_length klen pw
  hkdf_len := fun secret _ info klen => padTo_length klen (secret ++ info)
  ed25519Pub_len := fun seed => padTo_length 32 seed

theorem deriveMasterPriv_length (cp : CryptoPrims) (P : String) :
    (DeriveMasterPriv cp P).length = 64 := by
  simp [DeriveMasterPriv, cp.argon2_len]

theorem deriveKey_ok (cp : CryptoPrims) (m : Bytes) (purpose : String) :
    DeriveKey cp m purpose 32 =
      .ok (cp.hkdfSha256 m (strBytes "deriveKey") (strBytes purpose) 32) := by
  simp [DeriveKey, hkdfMaxOutput]

theorem deriveEd25519_ok (cp : CryptoPrims) (m : Bytes) (purpose : String)
    (h : m ≠ []) :
    DeriveEd25519FromMaster cp m purpose =
      .ok (ed25519NewKeyFromSeed cp
            (cp.hkdfSha256 m (strBytes "deriveKey") (strBytes purpose) 32),
          ed25519Public (ed25519NewKeyFromSeed cp
            (cp.hkdfSha256 m (strBytes "deriveKey") (strBytes purpose) 32))) := by
  simp [DeriveEd25519FromMaster, h, deriveKey_ok]

theorem deriveMasterPriv_ne_nil (cp : CryptoPrims) (P : String) :
    DeriveMasterPriv cp P ≠ [] := by
  intro h
  have := deriveMasterPriv_length cp P
  rw [h] at this
  simp at this

/-- C1: Deriving the master secret is deterministic: for every password
string P (including the empty one), two evaluations of
`DeriveMasterPriv` agree and produce a 64-byte string, and the Ed25519
identity keypair and onion NodeAddress computed by Node construction
from P agree across two evaluations (both evaluations succeed with the
same value). -/
theorem derive_master_deterministic (cp : CryptoPrims) (P : String) :
    DeriveMasterPriv cp P = DeriveMasterPriv cp P ∧
    (DeriveMasterPriv cp P).length = 64 ∧
    (∃ priv pub addr,
      nodeNewIdentity cp P false = .ok (priv, pub, addr) ∧
      nodeNewIdentity cp P false = .ok (priv, pub, addr)) := by
  refine ⟨rfl, deriveMasterPriv_length cp P, ?_⟩
  have hne := deriveMasterPriv_ne_nil cp P
  have hd := deriveEd25519_ok cp (DeriveMasterPriv cp P) "tor/onion/v3" hne
  have hrun : nodeNewIdentity cp P false =
      .ok (ed25519NewKeyFromSeed cp
            (cp.hkdfSha256 (DeriveMasterPriv cp P) (strBytes "deriveKey")
              (strBytes "tor/onion/v3") 32),
          ed25519Public (ed25519NewKeyFromSeed cp
            (cp.hkdfSha256 (DeriveMasterPriv cp P) (strBytes "deriveKey")
              (strBytes "tor/onion/v3") 32)),
          cp.onionIDOf (ed25519Public (ed25519NewKeyFromSeed cp
            (cp.hkdfSha256 (DeriveMasterPriv cp P) (strBytes "deriveKey")
              (strBytes "tor/onion/v3") 32))) ++ ".onion") := by
    simp [nodeNewIdentity, hd]
  exact ⟨_, _, _, hrun, hrun⟩

/-- C10: For every non-empty master material and purpose,
`DeriveEd25519FromMaster` returns exactly the keypair expanded from the
32-byte seed `DeriveKey(masterPriv, purpose, 32)`: the private key's
first 32 bytes are that seed, its last 32 bytes are the returned public
key, and the returned public key is the public part of the returned
private key. -/
theorem derive_ed25519_structure (cp : CryptoPrims) (masterPriv : Bytes)
    (purpose : String) (h : masterPriv ≠ []) :
    ∃ seed priv pub,
      DeriveKey cp masterPriv purpose 32 = .ok seed ∧
      DeriveEd25519FromMaster cp masterPriv purpose = .ok (priv, pub) ∧
      priv = ed25519NewKeyFromSeed cp seed ∧
      priv.take 32 = seed ∧
      priv.drop 32 = pub ∧
      pub = ed25519Public priv := by
  have hk : DeriveKey cp masterPriv purpose 32 =
      .ok (cp.hkdfSha256 masterPriv (strBytes "deriveKey") (strBytes purpose) 32) := by
    simp [DeriveKey, hkdfMaxOutput]
  set seed := cp.hkdfSha256 masterPriv (strBytes "deriveKey") (strBytes purpose) 32 with hseed
  have hlen : seed.length = 32 := cp.hkdf_len _ _ _ _
  refine ⟨seed, ed25519NewKeyFromSeed cp seed,
    ed25519Public (ed25519NewKeyFromSeed cp seed), hk, ?_, rfl, ?_, rfl, rfl⟩
  · simp [DeriveEd25519FromMaster, h, hk]
  · rw [ed25519NewKeyFromSeed, ← hlen, List.take_left]

/-- Witness for C10 at master material `[1]` and purpose "p". -/
theorem derive_ed25519_structure_witness :
    ([1] : Bytes) ≠ [] ∧
    (∃ seed priv pub,
      DeriveKey testPrims [1] "p" 32 = .ok seed ∧
      DeriveEd25519FromMaster testPrims [1] "p" = .ok (priv, pub) ∧
      priv = ed25519NewKeyFromSeed testPrims seed ∧
      priv.take 32 = seed ∧
      priv.drop 32 = pub ∧
      pub = ed25519Public priv) :=
  ⟨by decide, derive_ed25519_structure testPrims [1] "p" (by decide)⟩

/-- Public key embedded in an X.509 certificate: either an Ed25519 key
(with its 32 raw bytes) or a key of any other algorithm. -/
inductive CertKey
  | ed (k : Bytes)
  | other
deriving DecidableEq

/-- An X.509 certificate, reduced to the field the pinning code
inspects. -/
structure Cert where
  publicKey : CertKey
deriving DecidableEq

/-- TLS connection state as seen by a `VerifyConnection` callback:
the certificate chain presented by the counterpart. -/
structure ConnState where
  peerCertificates : List Cert
deriving DecidableEq

/-- The `VerifyConnection` callback installed by `BuildServerTLS`
(`internal/clitls/clitls.go`): require at least one client certificate,
require its public key to be Ed25519, and require those key bytes to
equal the pinned client key. -/
def serverVerifyConnection (expectedClientPub : Bytes) (cs : ConnState) :
    Except String Unit :=
  match cs.peerCertificates with
  | [] => .error "no client certificate"
  | c :: _ =>
    match c.publicKey with
    | .ed pk =>
      if pk = expectedClientPub then .ok ()
      else .error "unauthorized client certificate"
    | .other => .error "client cert not ed25519"

/-- The `VerifyPeerCertificate` callback installed by `BuildClientTLSF`
(`internal/clitls/clitls.go`): parse the first raw certificate, require
an Ed25519 key, and require its bytes to equal the pinned server key.
Certificate parsing (`x509.ParseCertificate`) is external, so it is a
parameter. -/
def clientVerifyPeerCertificate (parseCert : Bytes → Except String Cert)
    (serverPub : Bytes) (rawCerts : List Bytes) : Except String Unit :=
  match rawCerts with
  | [] => .error "no server certificate"
  | rc :: _ =>
    match parseCert rc with
    | .error e => .error e
    | .ok cert =>
      match cert.publicKey with
      | .ed pk =>
        if pk = serverPub then .ok ()
        else .error "server public key mismatch"
      | .other => .error "server cert is not ed25519"

/-- Numeric value of Go `tls.VersionTLS13`. -/
def tlsVersionTLS13 : Nat := 0x0304

/-- Numeric value of Go `tls.X25519MLKEM768`. -/
def curveX25519MLKEM768 : Nat := 0x11ec

/-- Numeric value of Go `tls.RequireAnyClientCert`. -/
def requireAnyClientCert : Nat := 3

/-- Server-side TLS configuration, reduced to the fields
`BuildServerTLS` sets. -/
structure ServerTLSConfig where
  certificates : List Cert
  minVersion : Nat
  curvePreferences : List Nat
  clientAuth : Nat
  verifyConnection : ConnState → Except String Unit

/-- BuildServerTLS from `internal/clitls/clitls.go`; the self-signed
server certificate creation draws randomness, so its outcome is a
parameter. -/
def BuildServerTLS (makeServerCert : Except String Cert)
    (expectedClientPub : Bytes) : Except String ServerTLSConfig :=
  match makeServerCert with
  | .error e => .error e
  | .ok cert =>
    .ok { certificates := [cert]
          minVersion := tlsVersionTLS13
          curvePreferences := [curveX25519MLKEM768]
          clientAuth := requireAnyClientCert
          verifyConnection := serverVerifyConnection expectedClientPub }

/-- Client-side TLS configuration, reduced to the fields set by
`BuildClientTLSF` and by the pool dial in `Node.getConn`. -/
structure ClientTLSConfig where
  certificates : List Cert
  minVersion : Nat
  curvePreferences : List Nat
  insecureSkipVerify : Bool
  verifyPeerCertificate : Option (List Bytes → Except String Unit)

/-- BuildClientTLSF from `internal/clitls/clitls.go`: chain validation
disabled (`InsecureSkipVerify`), pinning done in
`VerifyPeerCertificate`. -/
def BuildClientTLSF (makeClientCert : Except String Cert)
    (parseCert : Bytes → Except String Cert) (serverPub : Bytes) :
    Except String ClientTLSConfig :=
  match makeClientCert with
  | .error e => .error e
  | .ok cert =>
    .ok { certificates := [cert]
          minVersion := tlsVersionTLS13
          curvePreferences := [curveX25519MLKEM768]
          insecureSkipVerify := true
          verifyPeerCertificate := some (clientVerifyPeerCertificate parseCert serverPub) }

/-- Client-side acceptance of the counterpart's certificate chain in a
Go TLS handshake: the chain-and-hostname verification must pass unless
`InsecureSkipVerify` is set, and the `VerifyPeerCertificate` callback,
when installed, must return no error. -/
def clientHandshakeAccepts (cfg : ClientTLSConfig) (chainVerifies : Bool)
    (rawCerts : List Bytes) : Bool :=
  (cfg.insecureSkipVerify || chainVerifies) &&
  (match cfg.verifyPeerCertificate with
   | none => true
   | some f => match f rawCerts with
     | .ok _ => true
     | .error _ => false)

/-- C2: The acceptor-side pinned verification accepts a connection state
iff the counterpart presented at least one certificate whose leaf key is
Ed25519 and byte-for-byte equal to the pinned client key; the
initiator-side verification accepts a presented chain iff the parsed
leaf certificate carries an Ed25519 key byte-for-byte equal to the
pinned server key; any mismatch yields a verification error. -/
theorem pinned_verification_iff (expectedClientPub serverPub : Bytes)
    (parseCert : Bytes → Except String Cert)
    (cs : ConnState) (rawCerts : List Bytes) :
    (serverVerifyConnection expectedClientPub cs = .ok () ↔
      ∃ c rest, cs.peerCertificates = c :: rest ∧
        c.publicKey = .ed expectedClientPub) ∧
    (clientVerifyPeerCertificate parseCert serverPub rawCerts = .ok () ↔
      ∃ rc rest cert, rawCerts = rc :: rest ∧ parseCert rc = .ok cert ∧
        cert.publicKey = .ed serverPub) := by
  constructor
  · rcases cs with ⟨certs⟩
    cases certs with
    | nil => simp [serverVerifyConnection]
    | cons c rest =>
      cases hc : c.publicKey with
      | ed k =>
        by_cases hk : k = expectedClientPub <;>
          simp [serverVerifyConnection, hc, hk]
      | other => simp [serverVerifyConnection, hc]
  · cases rawCerts with
    | nil => simp [clientVerifyPeerCertificate]
    | cons rc rest =>
      cases hp : parseCert rc with
      | error e => simp [clientVerifyPeerCertificate, hp]
      | ok cert =>
        cases hck : cert.publicKey with
        | ed k =>
          by_cases hk : k = serverPub <;>
            simp [clientVerifyPeerCertificate, hp, hck, hk]
        | other => simp [clientVerifyPeerCertificate, hp, hck]

/-- Client TLS configuration built by the slow path of `Node.getConn`
(part_008, lines 244-253): the freshly built self-signed client
certificate, TLS 1.3 minimum, the post-quantum hybrid curve, and
`InsecureSkipVerify` set with no `VerifyPeerCertificate` (and no
`VerifyConnection`) callback installed. -/
def getConnClientTLS (cliCert : Cert) : ClientTLSConfig :=
  { certificates := [cliCert]
    minVersion := tlsVersionTLS13
    curvePreferences := [curveX25519MLKEM768]
    insecureSkipVerify := true
    verifyPeerCertificate := none }

/-- C4 counterexample: the pool-dial client TLS config accepts every
presented certificate chain, even when chain verification fails; in
particular two chains carrying two different Ed25519 keys are both
accepted on a dial to one fixed address, so the configuration cannot be
rejecting counterparts whose key does not correspond to the dialed
address (at most one of the two keys can correspond to it). -/
theorem getConn_dial_no_pinning_cex :
    clientHandshakeAccepts (getConnClientTLS ⟨.ed [0]⟩) false [[1]] = true ∧
    clientHandshakeAccepts (getConnClientTLS ⟨.ed [0]⟩) false [[2]] = true ∧
    ([1] : Bytes) ≠ [2] ∧
    (getConnClientTLS ⟨.ed [0]⟩).verifyPeerCertificate = none ∧
    (getConnClientTLS ⟨.ed [0]⟩).insecureSkipVerify = true := by
  refine ⟨rfl, rfl, by decide, rfl, rfl⟩

/-- C4 amended: the slow-path pool dial of `Node.getConn` uses a client
TLS config with the node's self-signed certificate, TLS 1.3 and the
post-quantum hybrid curve, but with `InsecureSkipVerify` set and no
verification callback, so its handshake verification accepts any
presented certificate chain and performs no check of the counterpart's
key against the dialed address. -/
theorem getConn_dial_accepts_any (cliCert : Cert) (chainVerifies : Bool)
    (rawCerts : List Bytes) :
    clientHandshakeAccepts (getConnClientTLS cliCert) chainVerifies rawCerts = true ∧
    (getConnClientTLS cliCert).certificates = [cliCert] ∧
    (getConnClientTLS cliCert).minVersion = tlsVersionTLS13 ∧
    (getConnClientTLS cliCert).curvePreferences = [curveX25519MLKEM768] ∧
    (getConnClientTLS cliCert).insecureSkipVerify = true ∧
    (getConnClientTLS cliCert).verifyPeerCertificate = none := by
  exact ⟨rfl, rfl, rfl, rfl, rfl, rfl⟩

/-- A pooled connection (`pooledConn` in part_008): the gRPC client
connection (a handle identifier here) and the last-used timestamp
(nanoseconds, like Go `time.Time`/`time.Duration`). -/
structure PooledConn where
  conn : Nat
  lastUsed : Int
deriving DecidableEq

/-- The `conns` map of a Node, as an association list keyed by peer
address. -/
abbrev ConnMap := List (String × PooledConn)

/-- Go map lookup on the pool. -/
def lookupConn (conns : ConnMap) (addr : String) : Option PooledConn :=
  match conns with
  | [] => none
  | (a, pc) :: rest => if a = addr then some pc else lookupConn rest addr

/-- Outcome of the publish step of `Node.getConn`: the connection handle
returned to the caller, the pool map afterwards, and whether the newly
dialed connection was closed as redundant. -/
structure PublishOutcome where
  returned : Nat
  conns : ConnMap
  closedNew : Bool
deriving DecidableEq

/-- The publish step at the end of `Node.getConn`'s slow path (part_008,
lines 268-278), applied to the pool map as found when the insert lock is
taken (which may differ from the map seen before the dial, because a
concurrent caller may have inserted): if an entry for the address
already exists, close the new connection and return the existing
handle; otherwise insert the new connection with a fresh last-used
timestamp. -/
def publishToPool (conns : ConnMap) (addr : String) (newConn : Nat)
    (now : Int) : PublishOutcome :=
  match lookupConn conns addr with
  | some existing => { returned := existing.conn, conns := conns, closedNew := true }
  | none =>
    { returned := newConn
      conns := (addr, { conn := newConn, lastUsed := now }) :: conns
      closedNew := false }

theorem lookupConn_eq_none_iff (conns : ConnMap) (addr : String) :
    lookupConn conns addr = none ↔ addr ∉ conns.map Prod.fst := by
  induction conns with
  | nil => simp [lookupConn]
  | cons hd tl ih =>
    rcases hd with ⟨a, pc⟩
    by_cases h : a = addr
    · subst h
      simp [lookupConn]
    · have h' : ¬ addr = a := fun hc => h hc.symm
      simp [lookupConn, h, h', ih]

/-- C3: The pool holds at most one entry per address: when the publish
step finds an existing entry for the address it closes the newly dialed
connection, returns the existing handle and leaves the map unchanged; a
new entry is inserted only when no entry is present; and the
one-entry-per-address invariant (no duplicate keys) is preserved, so no
duplicate pooled connection for one address is ever exposed. -/
theorem getConn_publish_unique (conns : ConnMap) (addr : String)
    (newConn : Nat) (now : Int)
    (hnodup : (conns.map Prod.fst).Nodup) :
    (∀ existing, lookupConn conns addr = some existing →
      publishToPool conns addr newConn now =
        { returned := existing.conn, conns := conns, closedNew := true }) ∧
    (lookupConn conns addr = none →
      publishToPool conns addr newConn now =
        { returned := newConn
          conns := (addr, { conn := newConn, lastUsed := now }) :: conns
          closedNew := false }) ∧
    ((publishToPool conns addr newConn now).conns.map Prod.fst).Nodup := by
  refine ⟨?_, ?_, ?_⟩
  · intro existing hex
    simp [publishToPool, hex]
  · intro hnone
    simp [publishToPool, hnone]
  · cases hlook : lookupConn conns addr with
    | some existing => simpa [publishToPool, hlook] using hnodup
    | none =>
      have hnotin := (lookupConn_eq_none_iff conns addr).mp hlook
      simp [publishToPool, hlook, hnotin, hnodup]

/-- Witness for C3 on a concrete two-entry pool. -/
theorem getConn_publish_unique_witness :
    ((([("a", ⟨1, 0⟩), ("b", ⟨2, 0⟩)] : ConnMap).map Prod.fst).Nodup) ∧
    ((∀ existing, lookupConn [("a", ⟨1, 0⟩), ("b", ⟨2, 0⟩)] "a" = some existing →
      publishToPool [("a", ⟨1, 0⟩), ("b", ⟨2, 0⟩)] "a" 7 5 =
        { returned := existing.conn
          conns := [("a", ⟨1, 0⟩), ("b", ⟨2, 0⟩)], closedNew := true }) ∧
    (lookupConn [("a", ⟨1, 0⟩), ("b", ⟨2, 0⟩)] "a" = none →
      publishToPool [("a", ⟨1, 0⟩), ("b", ⟨2, 0⟩)] "a" 7 5 =
        { returned := 7
          conns := ("a", { conn := 7, lastUsed := 5 }) :: [("a", ⟨1, 0⟩), ("b", ⟨2, 0⟩)]
          closedNew := false }) ∧
    ((publishToPool [("a", ⟨1, 0⟩), ("b", ⟨2, 0⟩)] "a" 7 5).conns.map Prod.fst).Nodup) :=
  ⟨by decide, getConn_publish_unique [("a", ⟨1, 0⟩), ("b", ⟨2, 0⟩)] "a" 7 5 (by decide)⟩

/-- Nanoseconds in one minute (Go `time.Minute`). -/
def minuteNs : Int := 60 * 1000000000

/-- Fixed interval of the background eviction ticker in
`Node.startEvictor` (part_008): `time.NewTicker(time.Minute)`. -/
def evictorTickerInterval : Int := minuteNs

/-- Fixed idle threshold passed to `evictIdle` by the evictor loop
(part_008): `n.evictIdle(5 * time.Minute)`. -/
def evictorIdleThreshold : Int := 5 * minuteNs

/-- One scan of `Node.evictIdle` (part_008, lines 325-335): with cutoff
`now - idle`, every entry whose last-used timestamp is strictly before
the cutoff (Go `time.Time.Before`) is closed and removed; the rest are
retained.  Returns the retained map and the list of closed entries. -/
def evictIdle (conns : ConnMap) (now idle : Int) : ConnMap × ConnMap :=
  let cutoff := now - idle
  (conns.filter (fun p => decide (cutoff ≤ p.2.lastUsed)),
   conns.filter (fun p => decide (p.2.lastUsed < cutoff)))

/-- The action the evictor loop runs on every ticker fire. -/
def evictorTickAction (conns : ConnMap) (now : Int) : ConnMap × ConnMap :=
  evictIdle conns now evictorIdleThreshold

/-- C6: Idle eviction is exact with respect to the threshold: a scan at
time `now` removes-and-closes exactly the entries whose last-used
timestamp is strictly older than `now` minus the five-minute idle
threshold and retains exactly the entries within the window; the
background task runs this scan on a fixed one-minute ticker with the
fixed five-minute threshold. -/
theorem evictIdle_exact (conns : ConnMap) (now : Int) :
    (∀ p, p ∈ (evictorTickAction conns now).1 ↔
      p ∈ conns ∧ now - evictorIdleThreshold ≤ p.2.lastUsed) ∧
    (∀ p, p ∈ (evictorTickAction conns now).2 ↔
      p ∈ conns ∧ p.2.lastUsed < now - evictorIdleThreshold) ∧
    evictorTickerInterval = minuteNs ∧
    evictorIdleThreshold = 5 * minuteNs := by
  refine ⟨?_, ?_, rfl, rfl⟩
  · intro p
    simp [evictorTickAction, evictIdle, List.mem_filter]
  · intro p
    simp [evictorTickAction, evictIdle, List.mem_filter]

/-- Observable events during `Node.Stop` and the evictor goroutine
(part_008).  `evictorSignal` is `close(n.evictStop)`; `evictScan` is one
execution of `n.evictIdle` by the evictor goroutine; `evictorDone` is
the observation of `close(doneCh)` by `<-doneCh` in `stopEvictor`
(channel semantics: every event of the goroutine happens before it);
`unregisterCall` is the `n.stop()` transport unregister;
`closeConn a` is `pc.conn.Close()` on the pooled entry for `a`. -/
inductive StopEv
  | evictorSignal
  | evictScan
  | evictorDone
  | unregisterCall
  | closeConn (addr : String)
deriving DecidableEq

/-- Lifecycle state of a Node relevant to Start/Stop (part_008): whether
the unregister handle `n.stop` is set, whether the evictor task is
running, and the pooled connections. -/
structure NodeLife where
  stopSet : Bool
  evictorOn : Bool
  conns : ConnMap
deriving DecidableEq

/-- Event trace of one `Node.Stop` call (part_008, lines 183-200) and
the resulting state.  A no-op when the unregister handle is unset.
Otherwise `stopEvictor` runs first: it signals the evictor and blocks on
the done channel, so the evictor goroutine's remaining scans
(`inFlightScans` of them, covering any scan racing with the signal) and
its exit all precede the `evictorDone` observation; only then does Stop
call the unregister function and finally close and remove every pooled
connection. -/
def nodeStopTrace (st : NodeLife) (inFlightScans : Nat) :
    List StopEv × NodeLife :=
  if st.stopSet = false then ([], st)
  else
    let evictorPart :=
      if st.evictorOn then
        StopEv.evictorSignal ::
          (List.replicate inFlightScans StopEv.evictScan ++ [StopEv.evictorDone])
      else []
    (evictorPart ++ [StopEv.unregisterCall] ++
       st.conns.map (fun p => StopEv.closeConn p.1),
     { stopSet := false, evictorOn := false, conns := [] })

/-- Events that must all precede the close-all phase. -/
def isPreCloseEv (e : StopEv) : Bool :=
  match e with
  | .evictorSignal => true
  | .evictScan => true
  | .evictorDone => true
  | .unregisterCall => true
  | .closeConn _ => false

theorem nodeStopTrace_split (st : NodeLife) (inFlightScans : Nat)
    (hstart : st.stopSet = true) (hev : st.evictorOn = true) :
    (nodeStopTrace st inFlightScans).1 =
      (StopEv.evictorSignal ::
        (List.replicate inFlightScans StopEv.evictScan ++ [StopEv.evictorDone]) ++
        [StopEv.unregisterCall]) ++
      st.conns.map (fun p => StopEv.closeConn p.1) := by
  simp [nodeStopTrace, hstart, hev]

/-- C7: During `Node.Stop` on a started node, the trace splits into a
prefix and the close-all phase: the prefix contains the evictor stop
signal, every eviction scan, the awaited evictor completion and the
transport unregister, in this order with `evictorDone` before
`unregisterCall`; the suffix consists exactly of the close events of the
pooled connections.  Hence the eviction task is fully awaited strictly
before any pooled connection is closed, no pooled connection is closed
before the unregister runs, and no eviction scan occurs after the
close-all phase begins. -/
theorem node_stop_ordering (st : NodeLife) (inFlightScans : Nat)
    (hstart : st.stopSet = true) (hev : st.evictorOn = true) :
    ∃ pre post,
      (nodeStopTrace st inFlightScans).1 = pre ++ post ∧
      (∀ e ∈ pre, isPreCloseEv e = true) ∧
      (∀ e ∈ post, isPreCloseEv e = false) ∧
      StopEv.evictorDone ∈ pre ∧
      pre = StopEv.evictorSignal ::
        (List.replicate inFlightScans StopEv.evictScan ++ [StopEv.evictorDone]) ++
        [StopEv.unregisterCall] ∧
      post = st.conns.map (fun p => StopEv.closeConn p.1) ∧
      (nodeStopTrace st inFlightScans).2 =
        { stopSet := false, evictorOn := false, conns := [] } := by
  refine ⟨_, _, nodeStopTrace_split st inFlightScans hstart hev, ?_, ?_, ?_, rfl, rfl, ?_⟩
  · intro e he
    rcases List.mem_cons.mp he with rfl | he2
    · rfl
    rcases List.mem_append.mp he2 with he3 | he4
    · rcases List.mem_append.mp he3 with he5 | he6
      · rw [List.eq_of_mem_replicate he5]
        rfl
      · rw [List.mem_singleton.mp he6]
        rfl
    · rw [List.mem_singleton.mp he4]
      rfl
  · intro e he
    simp only [List.mem_map] at he
    obtain ⟨p, _, rfl⟩ := he
    rfl
  · simp
  · simp [nodeStopTrace, hstart]

/-- Concrete started node used by the C7 witness. -/
def stopWitnessState : NodeLife :=
  { stopSet := true, evictorOn := true, conns := [("a", ⟨1, 0⟩)] }

/-- Witness for C7 on a concrete started node with one pooled
connection and one in-flight scan. -/
theorem node_stop_ordering_witness :
    stopWitnessState.stopSet = true ∧
    stopWitnessState.evictorOn = true ∧
    (∃ pre post,
      (nodeStopTrace stopWitnessState 1).1 = pre ++ post ∧
      (∀ e ∈ pre, isPreCloseEv e = true) ∧
      (∀ e ∈ post, isPreCloseEv e = false) ∧
      StopEv.evictorDone ∈ pre ∧
      pre = StopEv.evictorSignal ::
        (List.replicate 1 StopEv.evictScan ++ [StopEv.evictorDone]) ++
        [StopEv.unregisterCall] ∧
      post = stopWitnessState.conns.map (fun p => StopEv.closeConn p.1) ∧
      (nodeStopTrace stopWitnessState 1).2 =
        { stopSet := false, evictorOn := false, conns := [] }) :=
  ⟨rfl, rfl, node_stop_ordering stopWitnessState 1 rfl rfl⟩

/-- One `Node.Start` call (part_008, lines 148-180), with the outcomes
of the two fallible steps as parameters: building the self-signed
certificate (draws randomness) and the transport `Register` call
(network).  Returns the node lifecycle state afterwards and the error,
if any.  A node with the unregister handle already set is rejected; on a
certificate or register failure the function returns before `n.stop` is
assigned and before `startEvictor` runs, so the state is unchanged; only
when both steps succeed are the unregister handle stored and the evictor
started. -/
def nodeStart (st : NodeLife) (certBuild : Except String Cert)
    (registerOutcome : Except String Unit) : NodeLife × Option String :=
  if st.stopSet then (st, some "already started")
  else
    match certBuild with
    | .error e => (st, some e)
    | .ok _ =>
      match registerOutcome with
      | .error e => (st, some e)
      | .ok _ => ({ st with stopSet := true, evictorOn := true }, none)

/-- C8: `Node.Start` is atomic with respect to errors: from the Created
state (handle unset, evictor off), a certificate-build failure or a
transport `Register` failure returns that error with the state exactly
as it was — unregister handle still unset, eviction task not started —
so Start can be re-attempted on an equivalent state; only when both
steps succeed are the handle stored and the evictor running. -/
theorem node_start_atomic (st : NodeLife) (certBuild : Except String Cert)
    (registerOutcome : Except String Unit)
    (hcreated : st.stopSet = false) (hev : st.evictorOn = false) :
    (∀ e, certBuild = .error e →
      nodeStart st certBuild registerOutcome = (st, some e) ∧
      (nodeStart st certBuild registerOutcome).1.stopSet = false ∧
      (nodeStart st certBuild registerOutcome).1.evictorOn = false) ∧
    (∀ c e, certBuild = .ok c → registerOutcome = .error e →
      nodeStart st certBuild registerOutcome = (st, some e) ∧
      (nodeStart st certBuild registerOutcome).1.stopSet = false ∧
      (nodeStart st certBuild registerOutcome).1.evictorOn = false) ∧
    (∀ c, certBuild = .ok c → registerOutcome = .ok () →
      nodeStart st certBuild registerOutcome =
        ({ st with stopSet := true, evictorOn := true }, none)) := by
  refine ⟨?_, ?_, ?_⟩
  · intro e hc
    subst hc
    simp [nodeStart, hcreated, hev]
  · intro c e hc hr
    subst hc
    subst hr
    simp [nodeStart, hcreated, hev]
  · intro c hc hr
    subst hc
    subst hr
    simp [nodeStart, hcreated]

/-- Witness for C8: from a fresh Created state, a failing register call
leaves the state unchanged, and a fully successful Start sets the handle
and starts the evictor. -/
theorem node_start_atomic_witness :
    (({ stopSet := false, evictorOn := false, conns := [] } : NodeLife).stopSet
      = false) ∧
    (({ stopSet := false, evictorOn := false, conns := [] } : NodeLife).evictorOn
      = false) ∧
    ((∀ e, (Except.ok ⟨.ed [3]⟩ : Except String Cert) = .error e →
      nodeStart { stopSet := false, evictorOn := false, conns := [] }
          (.ok ⟨.ed [3]⟩) (.error "id already registered") =
        ({ stopSet := false, evictorOn := false, conns := [] }, some e) ∧
      (nodeStart { stopSet := false, evictorOn := false, conns := [] }
          (.ok ⟨.ed [3]⟩) (.error "id already registered")).1.stopSet = false ∧
      (nodeStart { stopSet := false, evictorOn := false, conns := [] }
          (.ok ⟨.ed [3]⟩) (.error "id already registered")).1.evictorOn = false) ∧
    (∀ c e, (Except.ok ⟨.ed [3]⟩ : Except String Cert) = .ok c →
      (Except.error "id already registered" : Except String Unit) = .error e →
      nodeStart { stopSet := false, evictorOn := false, conns := [] }
          (.ok ⟨.ed [3]⟩) (.error "id already registered") =
        ({ stopSet := false, evictorOn := false, conns := [] }, some e) ∧
      (nodeStart { stopSet := false, evictorOn := false, conns := [] }
          (.ok ⟨.ed [3]⟩) (.error "id already registered")).1.stopSet = false ∧
      (nodeStart { stopSet := false, evictorOn := false, conns := [] }
          (.ok ⟨.ed [3]⟩) (.error "id already registered")).1.evictorOn = false) ∧
    (∀ c, (Except.ok ⟨.ed [3]⟩ : Except String Cert) = .ok c →
      (Except.error "id already registered" : Except String Unit) = .ok () →
      nodeStart { stopSet := false, evictorOn := false, conns := [] }
          (.ok ⟨.ed [3]⟩) (.error "id already registered") =
        ({ ({ stopSet := false, evictorOn := false, conns := [] } : NodeLife)
            with stopSet := true, evictorOn := true }, none))) :=
  ⟨rfl, rfl, node_start_atomic { stopSet := false, evictorOn := false, conns := [] }
    (.ok ⟨.ed [3]⟩) (.error "id already registered") rfl rfl⟩

/-- A registered service in `MockNetwork` (part_008): the public key of
the registering node and its bufconn listener (a handle identifier
here). -/
structure MockService where
  pub : Bytes
  lisID : Nat
deriving DecidableEq

/-- The `nodes` registry of `MockNetwork`, keyed by address. -/
abbrev MockRegistry := List (String × MockService)

/-- Go map lookup on the mock registry. -/
def lookupSvc (nodes : MockRegistry) (addr : String) : Option MockService :=
  match nodes with
  | [] => none
  | (a, svc) :: rest => if a = addr then some svc else lookupSvc rest addr

/-- MockNetwork.Register (part_008, lines 38-64), restricted to its
effect on the registry: the bufconn listener is created and the gRPC
server started regardless, then under the lock the address is checked;
a duplicate yields the error with the registry untouched, otherwise the
service (whose `pub` is the public part of the registering private key)
is installed. -/
def mockRegister (nodes : MockRegistry) (addr : String) (priv : Bytes)
    (lisID : Nat) : Except String Unit × MockRegistry :=
  let svc : MockService := { pub := ed25519Public priv, lisID := lisID }
  match lookupSvc nodes addr with
  | some _ => (.error "id already registered", nodes)
  | none => (.ok (), (addr, svc) :: nodes)

/-- MockNetwork.Dial (part_008, lines 66-74): look the address up in the
registry and open a connection on the registered listener; an address
with no registered service fails. -/
def mockDial (nodes : MockRegistry) (addr : String) : Except String Nat :=
  match lookupSvc nodes addr with
  | some svc => .ok svc.lisID
  | none => .error "unknown address"

/-- C9: Registering an address that is already registered in the
in-memory network returns an error and leaves the registry unchanged:
the previously registered service is still the one reached by `Dial`
for that address (before and after the failed call), and the duplicate
registration installs nothing. -/
theorem mock_register_duplicate (nodes : MockRegistry) (addr : String)
    (svc0 : MockService) (priv : Bytes) (lisID : Nat)
    (hreg : lookupSvc nodes addr = some svc0) :
    mockRegister nodes addr priv lisID = (.error "id already registered", nodes) ∧
    mockDial nodes addr = .ok svc0.lisID ∧
    mockDial (mockRegister nodes addr priv lisID).2 addr = .ok svc0.lisID := by
  refine ⟨?_, ?_, ?_⟩ <;> simp [mockRegister, mockDial, hreg]

/-- Witness for C9 on a registry with one registered address. -/
theorem mock_register_duplicate_witness :
    lookupSvc [("a", ⟨[5], 9⟩)] "a" = some ⟨[5], 9⟩ ∧
    (mockRegister [("a", ⟨[5], 9⟩)] "a" [7] 11 =
        (.error "id already registered", [("a", ⟨[5], 9⟩)]) ∧
      mockDial [("a", ⟨[5], 9⟩)] "a" = .ok (⟨[5], 9⟩ : MockService).lisID ∧
      mockDial (mockRegister [("a", ⟨[5], 9⟩)] "a" [7] 11).2 "a" =
        .ok (⟨[5], 9⟩ : MockService).lisID) :=
  ⟨by decide, mock_register_duplicate [("a", ⟨[5], 9⟩)] "a" ⟨[5], 9⟩ [7] 11 (by decide)⟩

/-- Lowercase hex digit of a value below 16 (Go `%x` formatting). -/
def hexChar (n : Nat) : Char :=
  if n < 10 then Char.ofNat (48 + n) else Char.ofNat (87 + n)

/-- Two lowercase hex digits of one byte (Go `%x` formatting). -/
def hexByte (b : Nat) : List Char := [hexChar (b / 16 % 16), hexChar (b % 16)]

/-- Go `fmt.Sprintf("%x", bs)` on a byte slice: each byte as two
lowercase hex digits. -/
def hexStr (bs : Bytes) : String := ⟨(bs.map hexByte).flatten⟩

/-- Whitespace characters trimmed by Go `strings.TrimSpace` (the ASCII
and Latin-1 white space of `unicode.IsSpace`; trimming of further
Unicode space classes is irrelevant here because hex digits and the
newline are all below Latin-1). -/
def isGoSpace (c : Char) : Bool :=
  c.toNat == 9 || c.toNat == 10 || c.toNat == 11 || c.toNat == 12 ||
  c.toNat == 13 || c.toNat == 32 || c.toNat == 133 || c.toNat == 160

/-- Go `strings.TrimSpace`: remove leading and trailing white space. -/
def trimSpace (s : String) : String :=
  ⟨((s.data.dropWhile isGoSpace).reverse.dropWhile isGoSpace).reverse⟩

/-- Daemon-side state consulted by `cliService.Unlock` (app.go): whether
a node is already attached, and the content of `fingerprint.txt` if the
file exists. -/
structure UnlockSt where
  nodeAttached : Bool
  fingerprintFile : Option String
deriving DecidableEq

/-- Status outcomes of `cliService.Unlock` (app.go). -/
inductive UnlockResult
  | accepted
  | invalidArgument
  | failedPrecondition
  | permissionDenied
  | internalErr
deriving DecidableEq

/-- cliService.Unlock (app.go, lines 204-259): reject an empty password
and a second unlock; derive the master material and the hex fingerprint
under purpose "fingerprint"; if the fingerprint file exists compare its
trimmed content byte-for-byte and reject a mismatch without touching the
file or starting a node; if the file does not exist write the hex
fingerprint plus a newline; on success spawn the asynchronous
node-construction task (the returned Bool) and return immediately. -/
def unlock (cp : CryptoPrims) (st : UnlockSt) (password : String) :
    UnlockResult × UnlockSt × Bool :=
  if password = "" then (.invalidArgument, st, false)
  else if st.nodeAttached then (.failedPrecondition, st, false)
  else
    match DeriveKey cp (DeriveMasterPriv cp password) "fingerprint" 32 with
    | .error _ => (.internalErr, st, false)
    | .ok fp =>
      let hexfp := hexStr fp
      match st.fingerprintFile with
      | some content =>
        if trimSpace content = hexfp then (.accepted, st, true)
        else (.permissionDenied, st, false)
      | none =>
        (.accepted, { st with fingerprintFile := some (hexfp ++ "\n") }, true)

/-- The fingerprint bytes Unlock derives for a password (the value of
`DeriveKey(DeriveMasterPriv(P), "fingerprint", 32)`). -/
def fpBytes (cp : CryptoPrims) (P : String) : Bytes :=
  cp.hkdfSha256 (DeriveMasterPriv cp P) (strBytes "deriveKey")
    (strBytes "fingerprint") 32

theorem hexChar_not_space (n : Nat) (h : n < 16) :
    isGoSpace (hexChar n) = false := by
  interval_cases n <;> decide

theorem hexStr_not_space (bs : Bytes) :
    ∀ c ∈ (hexStr bs).data, isGoSpace c = false := by
  intro c hc
  have hdata : (hexStr bs).data = (bs.map hexByte).flatten := rfl
  rw [hdata] at hc
  obtain ⟨l, hl, hcl⟩ := List.mem_flatten.mp hc
  obtain ⟨b, hb, rfl⟩ := List.mem_map.mp hl
  simp only [hexByte, List.mem_cons, List.not_mem_nil, or_false] at hcl
  rcases hcl with rfl | rfl
  · exact hexChar_not_space _ (Nat.mod_lt _ (by norm_num))
  · exact hexChar_not_space _ (Nat.mod_lt _ (by norm_num))

theorem dropWhile_eq_self_of_forall {p : Char → Bool} {l : List Char}
    (h : ∀ c ∈ l, p c = false) : l.dropWhile p = l := by
  cases l with
  | nil => rfl
  | cons a t => simp [List.dropWhile_cons, h a (List.mem_cons_self a t)]

theorem hexStr_ne_nil_data (bs : Bytes) (h : bs ≠ []) :
    (hexStr bs).data ≠ [] := by
  rcases bs with ⟨⟩ | ⟨b, rest⟩
  · exact absurd rfl h
  · simp [hexStr, hexByte]

theorem trimSpace_hex_newline (bs : Bytes) (h : bs ≠ []) :
    trimSpace (hexStr bs ++ "\n") = hexStr bs := by
  have hdata : (hexStr bs ++ "\n").data = (hexStr bs).data ++ ['\n'] := rfl
  have hns := hexStr_not_space bs
  have hnil := hexStr_ne_nil_data bs h
  rw [trimSpace, hdata]
  rcases he : (hexStr bs).data with ⟨⟩ | ⟨c0, rest⟩
  · exact absurd he hnil
  · have hc0 : isGoSpace c0 = false := hns c0 (by rw [he]; exact List.mem_cons_self c0 rest)
    have hstep1 : ((c0 :: rest) ++ ['\n']).dropWhile isGoSpace =
        (c0 :: rest) ++ ['\n'] := by
      simp [List.dropWhile_cons, hc0]
    rw [hstep1]
    have hstep2 : ((c0 :: rest) ++ ['\n']).reverse =
        '\n' :: (c0 :: rest).reverse := by
      simp
    rw [hstep2]
    have hrev : ∀ c ∈ (c0 :: rest).reverse, isGoSpace c = false := by
      intro c hcmem
      exact hns c (by rw [he]; exact (List.mem_reverse).mp hcmem)
    have hstep3 : ('\n' :: (c0 :: rest).reverse).dropWhile isGoSpace =
        (c0 :: rest).reverse := by
      rw [List.dropWhile_cons]
      simp only [show isGoSpace '\n' = true from rfl, if_true]
      exact dropWhile_eq_self_of_forall hrev
    rw [hstep3, List.reverse_reverse]
    show String.mk (c0 :: rest) = hexStr bs
    rw [← he]

/-- Fresh unlock state: no node attached, no fingerprint file. -/
def stFresh : UnlockSt := { nodeAttached := false, fingerprintFile := none }

/-- Unlock state after a first successful Unlock with password P: no
node attached yet (attachment is asynchronous) and the fingerprint file
holding the hex fingerprint of P plus a newline. -/
def stWithFp (cp : CryptoPrims) (P : String) : UnlockSt :=
  { nodeAttached := false
    fingerprintFile := some (hexStr (fpBytes cp P) ++ "\n") }

/-- C5: The fingerprint gate of Unlock: with no fingerprint file, Unlock
with password P writes the hex fingerprint derived from P (plus a
newline) and succeeds, spawning the node-start task; on a directory
whose fingerprint file Unlock wrote for P, a later Unlock with the same
P succeeds; an Unlock with a password whose derived fingerprint differs
fails with the password-mismatch error, spawns no node start, and
leaves the fingerprint file unchanged. -/
theorem unlock_fingerprint_gate (cp : CryptoPrims) (P Pbad : String)
    (hP : P ≠ "") (hPb : Pbad ≠ "")
    (hne : hexStr (fpBytes cp Pbad) ≠ hexStr (fpBytes cp P)) :
    DeriveKey cp (DeriveMasterPriv cp P) "fingerprint" 32 = .ok (fpBytes cp P) ∧
    unlock cp stFresh P = (.accepted, stWithFp cp P, true) ∧
    unlock cp (stWithFp cp P) P = (.accepted, stWithFp cp P, true) ∧
    unlock cp (stWithFp cp P) Pbad =
      (.permissionDenied, stWithFp cp P, false) := by
  have hdk : DeriveKey cp (DeriveMasterPriv cp P) "fingerprint" 32 =
      .ok (fpBytes cp P) := deriveKey_ok cp _ _
  have hdkb : DeriveKey cp (DeriveMasterPriv cp Pbad) "fingerprint" 32 =
      .ok (fpBytes cp Pbad) := deriveKey_ok cp _ _
  have hfplen : (fpBytes cp P).length = 32 := cp.hkdf_len _ _ _ _
  have hfpne : fpBytes cp P ≠ [] := by
    intro hc
    rw [hc] at hfplen
    simp at hfplen
  have htr : trimSpace (hexStr (fpBytes cp P) ++ "\n") = hexStr (fpBytes cp P) :=
    trimSpace_hex_newline _ hfpne
  refine ⟨hdk, ?_, ?_, ?_⟩
  · simp [unlock, hP, hdk, stFresh, stWithFp]
  · simp [unlock, hP, hdk, htr, stWithFp]
  · have hne2 : ¬ (trimSpace (hexStr (fpBytes cp P) ++ "\n") =
        hexStr (fpBytes cp Pbad)) := by
      rw [htr]
      intro hc
      exact hne hc.symm
    simp [unlock, hPb, hdkb, hne2, stWithFp]

/-- Witness for C5 with the concrete primitive bundle and passwords "a"
and "b" (whose derived fingerprints differ under that bundle). -/
theorem unlock_fingerprint_gate_witness :
    ("a" : String) ≠ "" ∧ ("b" : String) ≠ "" ∧
    hexStr (fpBytes testPrims "b") ≠ hexStr (fpBytes testPrims "a") ∧
    (DeriveKey testPrims (DeriveMasterPriv testPrims "a") "fingerprint" 32 =
        .ok (fpBytes testPrims "a") ∧
      unlock testPrims stFresh "a" = (.accepted, stWithFp testPrims "a", true) ∧
      unlock testPrims (stWithFp testPrims "a") "a" =
        (.accepted, stWithFp testPrims "a", true) ∧
      unlock testPrims (stWithFp testPrims "a") "b" =
        (.permissionDenied, stWithFp testPrims "a", false)) :=
  ⟨by decide, by decide, by decide,
    unlock_fingerprint_gate testPrims "a" "b" (by decide) (by decide) (by decide)⟩
